import Mathlib

/-!
Verification development for the Zero core tensor runtime.

Shallow embedding of the tensor memory/view model and the numeric kernels:

* element-type catalog (dtype.hpp)
* layout calculator (memory.hpp: calc_tensor_bytes, calc_contiguous_strides)
* Tensor metadata record and its view algebra (tensor.hpp, reshape.hpp)
* kernels: elementwise (elementwise.hpp), reduction (reduce.hpp),
  dense matrix multiply (matmul.hpp)

Modelling conventions:

* raw pointers are byte addresses in Int, with 0 standing for nullptr;
* fixed-capacity shape/stride arrays (capacity MAX_DIMS = 8) are total
  functions Nat to Int: entries at or beyond ndim are the slots the source
  leaves untouched;
* F32 buffers are total functions Int to Rat indexed by 4-byte word, and
  element values are exact rationals: IEEE-754 rounding, NaN and infinity
  of intermediate arithmetic are not modelled, except that the explicit
  plus/minus infinity seeds of the reductions are modelled by a dedicated
  extended value type;
* size_t overflow in the layout calculator is a documented caller
  precondition of the source (spec section 4.1/7) and is not modelled.
-/

set_option linter.unusedVariables false

namespace ZeroRT

/-- Element type catalog, from dtype.hpp (enum class DType). -/
inductive DType where
  | F16 | F32 | F64
  | I8 | I16 | I32 | I64
  | U8 | U16 | U32 | U64
  | Bool
  | BF16
deriving DecidableEq, Repr

/-- Byte width of each element kind, from dtype_size in dtype.hpp. -/
def dtype_size : DType → Nat
  | .F16 => 2
  | .F32 => 4
  | .F64 => 8
  | .I8 => 1
  | .I16 => 2
  | .I32 => 4
  | .I64 => 8
  | .U8 => 1
  | .U16 => 2
  | .U32 => 4
  | .U64 => 8
  | .Bool => 1
  | .BF16 => 2

/-- Execution devices, from device.hpp (enum class Device). -/
inductive Device where
  | CPU | GPU | NPU
deriving DecidableEq, Repr

/-- Maximum number of tensor dimensions (MAX_DIMS in tensor.hpp). -/
def MAX_DIMS : Nat := 8

/-- calc_tensor_bytes from memory.hpp: rank 0 yields one element; otherwise
the loop accumulates numel as a product of the extents cast to size_t and
multiplies by the element width.  The cast of a non-negative int64_t extent
to size_t is value-preserving and modelled by Int.toNat; overflow of the
size_t product is a documented caller precondition, not modelled. -/
def calc_tensor_bytes (shape : Nat → Int) (ndim : Nat) (dtype : DType) : Nat :=
  if ndim = 0 then dtype_size dtype
  else ((List.range ndim).foldl (fun acc i => acc * (shape i).toNat) 1) * dtype_size dtype

/-- The descending fill loop of calc_contiguous_strides in memory.hpp:
with `i` dimensions still to fill and `stride` the running stride, the
loop writes strides[i-1] := stride, multiplies the running stride by
shape[i-1], and continues downward. -/
def fillStrides (shape : Nat → Int) : Int → Nat → (Nat → Int) → (Nat → Int)
  | _, 0, strides => strides
  | stride, i + 1, strides =>
      fillStrides shape (stride * shape i) i (fun k => if k = i then stride else strides k)

/-- calc_contiguous_strides from memory.hpp: writes row-major strides for
indices below ndim into the caller-supplied strides array, right to left,
starting from the element byte width; rank 0 writes nothing. -/
def calc_contiguous_strides (shape : Nat → Int) (ndim : Nat) (dtype : DType)
    (strides : Nat → Int) : Nat → Int :=
  if ndim = 0 then strides
  else fillStrides shape (dtype_size dtype : Int) ndim strides

/-- Core Tensor structure, from tensor.hpp.  data is a byte address with 0
for nullptr; shape and strides model the fixed MAX_DIMS-capacity arrays. -/
structure Tensor where
  data : Int
  dtype : DType
  device : Device
  ndim : Nat
  shape : Nat → Int
  strides : Nat → Int
  owns_data : Bool

/-- Tensor::numel from tensor.hpp: 1 for rank 0, otherwise the loop product
of the extents (int64_t arithmetic). -/
def Tensor.numel (t : Tensor) : Int :=
  if t.ndim = 0 then 1
  else (List.range t.ndim).foldl (fun acc i => acc * t.shape i) 1

/-- The descending check loop of Tensor::is_contiguous: with `i` dimensions
still to check and `expected` the running expected stride, compare
strides[i-1] against expected, then multiply expected by shape[i-1]. -/
def contigCheck (shape strides : Nat → Int) : Int → Nat → Bool
  | _, 0 => true
  | expected, i + 1 =>
      (strides i == expected) && contigCheck shape strides (expected * shape i) i

/-- Tensor::is_contiguous from tensor.hpp: rank 0 is contiguous; otherwise
run the descending stride check starting from the element byte width. -/
def Tensor.is_contiguous (t : Tensor) : Bool :=
  if t.ndim = 0 then true
  else contigCheck t.shape t.strides (dtype_size t.dtype : Int) t.ndim

/-- Tensor::reshape from tensor.hpp: copy the tensor, set the new rank,
drop ownership, copy the new extents into the low slots of the shape array,
and, only if the source is contiguous, overwrite the low stride slots with
canonical strides for the new shape (the source calls
calc_contiguous_strides on the copied strides array). -/
def Tensor.reshape (t : Tensor) (new_shape : Nat → Int) (new_ndim : Nat) : Tensor :=
  let base : Tensor :=
    { t with
      ndim := new_ndim
      owns_data := false
      shape := fun i => if i < new_ndim then new_shape i else t.shape i }
  if t.is_contiguous then
    { base with strides := calc_contiguous_strides new_shape new_ndim t.dtype t.strides }
  else base

/-- Tensor::transpose from tensor.hpp: rank below 2 returns the tensor
unchanged (including its ownership flag); otherwise copy, drop ownership
and swap the extent and stride of the last two dimensions. -/
def Tensor.transpose (t : Tensor) : Tensor :=
  if t.ndim < 2 then t
  else
    { t with
      owns_data := false
      shape := fun i =>
        if i = t.ndim - 1 then t.shape (t.ndim - 2)
        else if i = t.ndim - 2 then t.shape (t.ndim - 1)
        else t.shape i
      strides := fun i =>
        if i = t.ndim - 1 then t.strides (t.ndim - 2)
        else if i = t.ndim - 2 then t.strides (t.ndim - 1)
        else t.strides i }

/-- Tensor::slice from tensor.hpp: copy, drop ownership, shift the data
address by start times the byte stride of the sliced dimension, and set the
extent of that dimension to end minus start.  The source performs no bounds
checking here (can_slice is a separate predicate). -/
def Tensor.slice (t : Tensor) (dim : Nat) (start stop : Int) : Tensor :=
  { t with
    owns_data := false
    data := t.data + start * t.strides dim
    shape := fun i => if i = dim then stop - start else t.shape i }

/-- Tensor::free from tensor.hpp: only when the tensor owns its data and
the pointer is non-null, release the buffer (mem_free), null the pointer
and clear the ownership flag; otherwise do nothing.  The Bool result
records whether mem_free was invoked. -/
def Tensor.free (t : Tensor) : Tensor × Bool :=
  if t.owns_data = true ∧ t.data ≠ 0 then
    ({ t with data := 0, owns_data := false }, true)
  else (t, false)

/-- Byte address of the element at a multi-index, per the layout invariant
of the spec (section 3): base address plus the sum over the first ndim
dimensions of index times byte stride. -/
def elem_addr (t : Tensor) (idx : Nat → Int) : Int :=
  t.data + ∑ i in Finset.range t.ndim, idx i * t.strides i

namespace ops

/-- Per-dimension broadcast resolution step of broadcast_shape in
reshape.hpp: equal dims pass through, a dim of 1 yields the other dim,
anything else is incompatible. -/
def bcastDim (a b : Int) : Option Int :=
  if a = b then some a
  else if a = 1 then some b
  else if b = 1 then some a
  else none

/-- Right-aligned dimension lookup of broadcast_shape in reshape.hpp: the
output index j pairs with input index n - outN + j, and a missing leading
dimension (negative input index) counts as 1. -/
def alignedDim (s : Nat → Int) (n outN j : Nat) : Int :=
  if outN - n ≤ j then s (j - (outN - n)) else 1

/-- broadcast_shape from reshape.hpp: out_ndim is the larger input rank;
walking right-aligned, each output dimension is the broadcast resolution of
the paired input dimensions; any incompatible pair makes the function
return false (here: none) instead of a shape. -/
def broadcast_shape (aS : Nat → Int) (aN : Nat) (bS : Nat → Int) (bN : Nat) :
    Option (Nat × (Nat → Int)) :=
  let outN := max aN bN
  let dim : Nat → Option Int := fun j =>
    bcastDim (alignedDim aS aN outN j) (alignedDim bS bN outN j)
  if ∀ j, j < outN → (dim j).isSome then
    some (outN, fun j => (dim j).getD 0)
  else none

/-- squeeze from reshape.hpp: copy, drop ownership, compact the shape and
stride slots of all dimensions whose extent is not 1 into the low slots
(slots at or beyond the new rank keep the input entries, as the source
loop leaves them). -/
def squeeze (input : Tensor) : Tensor :=
  let kept := (List.range input.ndim).filter (fun i => input.shape i ≠ 1)
  { input with
    owns_data := false
    ndim := kept.length
    shape := fun k => input.shape (kept.getD k k)
    strides := fun k => input.strides (kept.getD k k) }

/-- squeeze_dim from reshape.hpp: when dim is out of range or the extent at
dim is not 1, return the input unchanged (ownership flag included);
otherwise copy, drop ownership, shift the entries above dim down by one and
decrement the rank. -/
def squeeze_dim (input : Tensor) (dim : Nat) : Tensor :=
  if input.ndim ≤ dim ∨ input.shape dim ≠ 1 then input
  else
    { input with
      owns_data := false
      ndim := input.ndim - 1
      shape := fun i =>
        if dim ≤ i ∧ i < input.ndim - 1 then input.shape (i + 1) else input.shape i
      strides := fun i =>
        if dim ≤ i ∧ i < input.ndim - 1 then input.strides (i + 1) else input.strides i }

/-- unsqueeze from reshape.hpp: when dim is beyond the rank or the rank is
already MAX_DIMS, return the input unchanged (ownership flag included);
otherwise copy, drop ownership, shift entries at positions above dim up by
one, insert extent 1 at dim, and give the inserted slot the displaced
stride (or the element byte width when appended at the end). -/
def unsqueeze (input : Tensor) (dim : Nat) : Tensor :=
  if input.ndim < dim ∨ MAX_DIMS ≤ input.ndim then input
  else
    { input with
      owns_data := false
      ndim := input.ndim + 1
      shape := fun i =>
        if i = dim then 1
        else if dim < i ∧ i < input.ndim + 1 then input.shape (i - 1)
        else input.shape i
      strides := fun i =>
        if i = dim then
          (if dim < input.ndim then input.strides dim else (dtype_size input.dtype : Int))
        else if dim < i ∧ i < input.ndim + 1 then input.strides (i - 1)
        else input.strides i }

/-- permute from reshape.hpp: copy, drop ownership, and reorder the first
ndim shape and stride slots through the caller-supplied permutation (no
validation that perm is a permutation, as in the source). -/
def permute (input : Tensor) (perm : Nat → Nat) : Tensor :=
  { input with
    owns_data := false
    shape := fun i => if i < input.ndim then input.shape (perm i) else input.shape i
    strides := fun i => if i < input.ndim then input.strides (perm i) else input.strides i }

/-- expand from reshape.hpp: build from Tensor::empty (all metadata slots
zeroed), share the data address, copy dtype and device, never own; each
output dimension takes the requested extent, with stride 0 for new leading
dimensions and for source dimensions of extent 1, and the source stride
otherwise. -/
def expand (input : Tensor) (new_shape : Nat → Int) (new_ndim : Nat) : Tensor :=
  { data := input.data
    dtype := input.dtype
    device := input.device
    ndim := new_ndim
    owns_data := false
    shape := fun i => if i < new_ndim then new_shape i else 0
    strides := fun i =>
      if i < new_ndim then
        let inIdx : Int := (i : Int) - ((new_ndim : Int) - (input.ndim : Int))
        if inIdx < 0 then 0
        else if input.shape inIdx.toNat = 1 then 0
        else input.strides inIdx.toNat
      else 0 }

/-- Elementwise operation tags, from elementwise.hpp. -/
inductive ElementwiseOp where
  | ADD | SUB | MUL | DIV
  | NEG | ABS | EXP | LOG | SQRT | SIN | COS | TANH
  | RELU | SIGMOID
deriving DecidableEq, Repr

/-- The scalar combination applied by the four arithmetic branches of
binary_op and scalar_op in elementwise.hpp (other tags fall into the
switch default there and perform no write; the 0 returned here for them is
never used by the kernel models). -/
def binScalar (op : ElementwiseOp) (x y : ℚ) : ℚ :=
  match op with
  | .ADD => x + y
  | .SUB => x - y
  | .MUL => x * y
  | .DIV => x / y
  | _ => 0

/-- unary_op from elementwise.hpp.  Guards, in source order: both tensors
on the CPU; both element types exactly F32; both data pointers non-null;
equal element counts.  Then the switch writes output[i] for 0 <= i < numel.
NEG, ABS and RELU are modelled exactly; the libm-backed branches (EXP, LOG,
SQRT, SIN, COS, TANH, SIGMOID) apply the abstract real-valued routine
mathF, a parameter of the model, since their float values are not rational;
the write pattern, which is what the claims below concern, does not depend
on it.  An op tag outside the switch cases would hit the default and write
nothing, but all 14 tags are cases here, so every tag past the guards
writes. -/
def unary_op (mathF : ElementwiseOp → ℚ → ℚ) (input output : Tensor)
    (inB outB : Int → ℚ) (op : ElementwiseOp) : Int → ℚ :=
  if input.device ≠ Device.CPU ∨ output.device ≠ Device.CPU then outB
  else if input.dtype ≠ DType.F32 ∨ output.dtype ≠ DType.F32 then outB
  else if input.data = 0 ∨ output.data = 0 then outB
  else if input.numel ≠ output.numel then outB
  else
    let n := input.numel
    let f : ℚ → ℚ :=
      match op with
      | .NEG => fun x => -x
      | .ABS => fun x => |x|
      | .RELU => fun x => if x > 0 then x else 0
      | _ => mathF op
    fun i => if 0 ≤ i ∧ i < n then f (inB i) else outB i

/-- binary_op from elementwise.hpp.  Guards, in source order: all three
tensors on the CPU; the element types of the two INPUT tensors exactly F32
(the output element type is not checked by the source); then n is the
OUTPUT element count.  Equal input element counts take the pure elementwise
switch; otherwise a right operand with exactly one element takes the scalar
broadcast switch; otherwise nothing is written.  Only ADD, SUB, MUL and DIV
have switch cases; other tags hit the default and write nothing. -/
def binary_op (a b out : Tensor) (aB bB outB : Int → ℚ) (op : ElementwiseOp) :
    Int → ℚ :=
  if a.device ≠ Device.CPU ∨ b.device ≠ Device.CPU ∨ out.device ≠ Device.CPU then outB
  else if a.dtype ≠ DType.F32 ∨ b.dtype ≠ DType.F32 then outB
  else
    let n := out.numel
    if a.numel = b.numel then
      match op with
      | .ADD => fun i => if 0 ≤ i ∧ i < n then aB i + bB i else outB i
      | .SUB => fun i => if 0 ≤ i ∧ i < n then aB i - bB i else outB i
      | .MUL => fun i => if 0 ≤ i ∧ i < n then aB i * bB i else outB i
      | .DIV => fun i => if 0 ≤ i ∧ i < n then aB i / bB i else outB i
      | _ => outB
    else if b.numel = 1 then
      match op with
      | .ADD => fun i => if 0 ≤ i ∧ i < n then aB i + bB 0 else outB i
      | .SUB => fun i => if 0 ≤ i ∧ i < n then aB i - bB 0 else outB i
      | .MUL => fun i => if 0 ≤ i ∧ i < n then aB i * bB 0 else outB i
      | .DIV => fun i => if 0 ≤ i ∧ i < n then aB i / bB 0 else outB i
      | _ => outB
    else outB

/-- gemm from matmul.hpp.  Guards, in source order: all three tensors on
the CPU; all three of rank 2; all three element types exactly F32; inner
dimension agreement B.shape[0] = A.shape[1] and exact output shape
C.shape = [M, N].  The triple loop writes each cell c[m*N+n] exactly once,
for 0 <= m < M and 0 <= n < N, reading only A, B and the pre-call value of
that same cell; its net effect on the C buffer is recorded here per word
index, recovering m and n from the index by division and remainder (for
N > 0 the written indices are exactly 0 <= idx < M*N, with m = idx / N and
n = idx mod N; for N <= 0 or M <= 0 the loop writes nothing). -/
def gemm (A B C : Tensor) (aB bB cB : Int → ℚ) (alpha beta : ℚ) : Int → ℚ :=
  if A.device ≠ Device.CPU ∨ B.device ≠ Device.CPU ∨ C.device ≠ Device.CPU then cB
  else if A.ndim ≠ 2 ∨ B.ndim ≠ 2 ∨ C.ndim ≠ 2 then cB
  else if A.dtype ≠ DType.F32 ∨ B.dtype ≠ DType.F32 ∨ C.dtype ≠ DType.F32 then cB
  else if B.shape 0 ≠ A.shape 1 ∨ C.shape 0 ≠ A.shape 0 ∨ C.shape 1 ≠ B.shape 1 then cB
  else
    fun idx =>
      if 0 < B.shape 1 ∧ 0 ≤ idx ∧ idx < A.shape 0 * B.shape 1 then
        alpha * (∑ k in Finset.range (A.shape 1).toNat,
            aB ((idx / B.shape 1) * A.shape 1 + (k : Int)) *
              bB ((k : Int) * B.shape 1 + idx % B.shape 1)) +
          beta * cB idx
      else cB idx

/-- matmul from matmul.hpp: gemm with alpha 1 and beta 0. -/
def matmul (A B C : Tensor) (aB bB cB : Int → ℚ) : Int → ℚ :=
  gemm A B C aB bB cB 1 0

/-- Reduction operation tags, from reduce.hpp. -/
inductive ReduceOp where
  | SUM | MAX | MIN | MEAN | PROD
deriving DecidableEq, Repr

/-- Float value as produced by reduce_all: either a finite value (modelled
exactly as a rational) or one of the two infinities used as the max/min
seeds (-std::numeric_limits::infinity() and its negation). -/
inductive RVal where
  | fin : ℚ → RVal
  | negInf : RVal
  | posInf : RVal
deriving DecidableEq, Repr

/-- The comparison data[i] > acc of the MAX branch of reduce_all, for a
finite element against the running accumulator. -/
def rvGT (q : ℚ) (v : RVal) : Bool :=
  match v with
  | .fin m => q > m
  | .negInf => true
  | .posInf => false

/-- The comparison data[i] < acc of the MIN branch of reduce_all, for a
finite element against the running accumulator. -/
def rvLT (q : ℚ) (v : RVal) : Bool :=
  match v with
  | .fin m => q < m
  | .negInf => false
  | .posInf => true

/-- reduce_all from reduce.hpp.  A non-F32 element type returns 0 before
touching the buffer; an element count of exactly 0 returns 0 before any
loop; otherwise SUM, MEAN and PROD fold the first numel buffer words in
order, MEAN divides the sum by the element count, and MAX and MIN fold with
the minus/plus infinity seed, replacing it on a strict comparison.  A
negative element count (possible only for metadata with negative extents)
runs no loop iterations, so MAX and MIN would return their seed, as in the
source. -/
def reduce_all (t : Tensor) (buf : Int → ℚ) (op : ReduceOp) : RVal :=
  if t.dtype ≠ DType.F32 then .fin 0
  else
    let n := t.numel
    if n = 0 then .fin 0
    else
      match op with
      | .SUM => .fin ((List.range n.toNat).foldl (fun acc i => acc + buf (i : Int)) 0)
      | .MAX =>
          (List.range n.toNat).foldl
            (fun acc i => if rvGT (buf (i : Int)) acc then .fin (buf (i : Int)) else acc)
            .negInf
      | .MIN =>
          (List.range n.toNat).foldl
            (fun acc i => if rvLT (buf (i : Int)) acc then .fin (buf (i : Int)) else acc)
            .posInf
      | .MEAN =>
          .fin (((List.range n.toNat).foldl (fun acc i => acc + buf (i : Int)) 0) / (n : ℚ))
      | .PROD => .fin ((List.range n.toNat).foldl (fun acc i => acc * buf (i : Int)) 1)

end ops

/-- Convenience constructor for concrete tensors in witnesses: the shape
and stride lists fill the low slots of the fixed-capacity arrays and the
remaining slots are 0, as Tensor::empty initialises them. -/
def mkT (data : Int) (dt : DType) (dev : Device) (shape strides : List Int)
    (owns : Bool) : Tensor :=
  { data := data
    dtype := dt
    device := dev
    ndim := shape.length
    shape := fun i => shape.getD i 0
    strides := fun i => strides.getD i 0
    owns_data := owns }

/-- Convenience constructor for concrete F32 buffers in witnesses: word i
holds the i-th list element, words outside the list hold 0. -/
def bufL (l : List ℚ) : Int → ℚ := fun i => l.getD i.toNat 0

/-- Concrete owning rank-1 F32 tensor of extent 4 (for ownership claims). -/
def exOwner : Tensor := mkT 4096 DType.F32 Device.CPU [4] [4] true

/-- Concrete owning contiguous 4 by 6 F32 tensor (for the slice claim). -/
def exM46 : Tensor := mkT 1000 DType.F32 Device.CPU [4, 6] [24, 4] true

/-- Concrete empty (extent-0) F32 tensor (for the empty-reduction claim). -/
def exEmpty : Tensor := mkT 0 DType.F32 Device.CPU [0] [4] false

/-- Concrete rank-1 extent-4 F32 CPU tensor metadata used by the
elementwise examples. -/
def exV4 : Tensor := mkT 500 DType.F32 Device.CPU [4] [4] false

/-- Second rank-1 extent-4 F32 CPU tensor for the elementwise examples. -/
def exV4b : Tensor := mkT 600 DType.F32 Device.CPU [4] [4] false

/-- Output rank-1 extent-4 F32 CPU tensor for the elementwise examples. -/
def exV4o : Tensor := mkT 700 DType.F32 Device.CPU [4] [4] false

/-- The 2 by 3 matrix A = [[1,2,3],[4,5,6]] of the matmul example. -/
def exGA : Tensor := mkT 100 DType.F32 Device.CPU [2, 3] [12, 4] false

/-- The 3 by 2 matrix B = [[1,4],[2,5],[3,6]] of the matmul example. -/
def exGB : Tensor := mkT 200 DType.F32 Device.CPU [3, 2] [8, 4] false

/-- The 2 by 2 output matrix C of the matmul example. -/
def exGC : Tensor := mkT 300 DType.F32 Device.CPU [2, 2] [8, 4] false

/-- F64 variant 1 by 1 matrix (gemm refuses every non-F32 element type). -/
def exGA64 : Tensor := mkT 100 DType.F64 Device.CPU [1, 1] [8, 8] false

/-- Second F64 1 by 1 matrix. -/
def exGB64 : Tensor := mkT 200 DType.F64 Device.CPU [1, 1] [8, 8] false

/-- F64 1 by 1 output matrix. -/
def exGC64 : Tensor := mkT 300 DType.F64 Device.CPU [1, 1] [8, 8] false

/-- One-element F32 CPU tensor (left input of the output-dtype probe). -/
def exS32a : Tensor := mkT 10 DType.F32 Device.CPU [1] [4] false

/-- One-element F32 CPU tensor (right input of the output-dtype probe). -/
def exS32b : Tensor := mkT 20 DType.F32 Device.CPU [1] [4] false

/-- One-element F64 CPU tensor (output of the output-dtype probe). -/
def exS64o : Tensor := mkT 30 DType.F64 Device.CPU [1] [8] false

/-- Shape [2, 3] used by the layout-calculator witness. -/
def exShape23 : Nat → Int := fun i => [2, 3].getD i 0

/-- The zero-initialised strides array Tensor::empty provides before
calc_contiguous_strides fills it. -/
def zeroBase : Nat → Int := fun _ => 0

/-- Shape [3, 1] of the broadcast example. -/
def exBA : Nat → Int := fun i => [3, 1].getD i 0

/-- Shape [1, 4] of the broadcast example. -/
def exBB : Nat → Int := fun i => [1, 4].getD i 0

/-- The output shape function broadcast_shape produces on the broadcast
example (the per-dimension resolved extents). -/
def exBO : Nat → Int := fun j =>
  (ops.bcastDim (ops.alignedDim exBA 2 (max 2 2) j)
    (ops.alignedDim exBB 2 (max 2 2) j)).getD 0

/-- C6: releasing a Tensor that owns a live buffer returns the buffer to
the allocator (the Bool component records the mem_free call), nulls the
data pointer and clears the ownership flag; releasing the resulting tensor
again is a safe no-op with no buffer operation; and releasing any tensor
whose ownership flag is false (a view) performs no buffer operation and
changes nothing. -/
theorem C6_release (t u : Tensor) (hown : t.owns_data = true) (hdata : t.data ≠ 0)
    (hu : u.owns_data = false) :
    t.free = ({ t with data := 0, owns_data := false }, true)
    ∧ (t.free.1).free = (t.free.1, false)
    ∧ u.free = (u, false) := by
  refine ⟨?_, ?_, ?_⟩
  · simp [Tensor.free, hown, hdata]
  · simp [Tensor.free, hown, hdata]
  · simp [Tensor.free, hu]

/-- Witness for C6 at a concrete owning tensor and a concrete view. -/
theorem C6_release_witness :
    exOwner.free = ({ exOwner with data := 0, owns_data := false }, true)
    ∧ (exOwner.free.1).free = (exOwner.free.1, false)
    ∧ exV4.free = (exV4, false) :=
  C6_release exOwner exV4 rfl (by decide) rfl

/-- C8: every tensor with zero elements reduces to exactly 0 under every
full-reduction kind (sum, mean, max, min, prod): the element-count check
returns before the infinity-seeded max/min folds run, so the result is the
finite value 0 (never an infinity seed, and in the runtime never NaN),
whatever the buffer holds. -/
theorem C8_empty_reduction (t : Tensor) (buf : Int → ℚ) (op : ops.ReduceOp)
    (h : t.numel = 0) : ops.reduce_all t buf op = ops.RVal.fin 0 := by
  unfold ops.reduce_all
  split
  · rfl
  · simp [h]

/-- Witness for C8 at a concrete extent-0 tensor, for the max kind, over a
buffer of nonzero values. -/
theorem C8_empty_reduction_witness :
    ops.reduce_all exEmpty (fun _ => 5) ops.ReduceOp.MAX = ops.RVal.fin 0 :=
  C8_empty_reduction exEmpty (fun _ => 5) ops.ReduceOp.MAX (by decide)

/-- C1 (amended): every view-derivation operation returns a Tensor whose
ownership flag is false and whose buffer address equals the source address
(shifted by start times stride for slice), EXCEPT on the degenerate paths
— transpose with rank below 2, squeeze_dim on a dimension whose extent is
not 1 or out of range, unsqueeze with an out-of-range position or a source
already at MAX_DIMS — where the source tensor is returned unchanged, so
its ownership flag (and buffer address) are preserved as they were. -/
theorem C1_view_ownership_amended (t : Tensor) (new_shape eS : Nat → Int)
    (new_ndim eN dim d u : Nat) (start stop : Int) (perm : Nat → Nat) :
    ((t.reshape new_shape new_ndim).owns_data = false
      ∧ (t.reshape new_shape new_ndim).data = t.data)
    ∧ (t.transpose.owns_data = (if t.ndim < 2 then t.owns_data else false)
      ∧ t.transpose.data = t.data)
    ∧ ((t.slice dim start stop).owns_data = false
      ∧ (t.slice dim start stop).data = t.data + start * t.strides dim)
    ∧ ((ops.squeeze t).owns_data = false ∧ (ops.squeeze t).data = t.data)
    ∧ ((ops.squeeze_dim t d).owns_data
        = (if t.ndim ≤ d ∨ t.shape d ≠ 1 then t.owns_data else false)
      ∧ (ops.squeeze_dim t d).data = t.data)
    ∧ ((ops.unsqueeze t u).owns_data
        = (if t.ndim < u ∨ MAX_DIMS ≤ t.ndim then t.owns_data else false)
      ∧ (ops.unsqueeze t u).data = t.data)
    ∧ ((ops.permute t perm).owns_data = false ∧ (ops.permute t perm).data = t.data)
    ∧ ((ops.expand t eS eN).owns_data = false ∧ (ops.expand t eS eN).data = t.data) := by
  refine ⟨⟨?_, ?_⟩, ⟨?_, ?_⟩, ⟨rfl, rfl⟩, ⟨rfl, rfl⟩, ⟨?_, ?_⟩, ⟨?_, ?_⟩,
    ⟨rfl, rfl⟩, ⟨rfl, rfl⟩⟩
  · unfold Tensor.reshape
    split <;> rfl
  · unfold Tensor.reshape
    split <;> rfl
  · by_cases h : t.ndim < 2 <;> simp [Tensor.transpose, h]
  · by_cases h : t.ndim < 2 <;> simp [Tensor.transpose, h]
  · by_cases h : t.ndim ≤ d ∨ t.shape d ≠ 1 <;> simp [ops.squeeze_dim, h]
  · by_cases h : t.ndim ≤ d ∨ t.shape d ≠ 1 <;> simp [ops.squeeze_dim, h]
  · by_cases h : t.ndim < u ∨ MAX_DIMS ≤ t.ndim <;> simp [ops.unsqueeze, h]
  · by_cases h : t.ndim < u ∨ MAX_DIMS ≤ t.ndim <;> simp [ops.unsqueeze, h]

/-- Counterexample to C1 as stated: on the degenerate paths the operations
return the source tensor unchanged, so an OWNING rank-1 tensor fed to
transpose (rank below 2), to squeeze_dim on its extent-4 dimension, or to
unsqueeze at the out-of-range position 3, comes back with ownership flag
still true, not false as the claim requires. -/
theorem C1_view_ownership_counterexample :
    exOwner.owns_data = true
    ∧ exOwner.transpose.owns_data = true
    ∧ (ops.squeeze_dim exOwner 0).owns_data = true
    ∧ (ops.unsqueeze exOwner 3).owns_data = true := by
  decide

/-- C7: for a valid slice (dimension in range, 0 <= start <= stop <=
extent), the view shares the source buffer shifted by start times the byte
stride of the sliced dimension, its extent along that dimension becomes
stop minus start with the stride unchanged (all strides are untouched),
every other dimension keeps its extent, the rank is unchanged, and the
element at index 0 along the sliced dimension of the view sits at the same
byte address as the element at index start along that dimension of the
source. -/
theorem C7_slice (t : Tensor) (dim j : Nat) (start stop : Int) (idx : Nat → Int)
    (hdim : dim < t.ndim) (h0 : 0 ≤ start) (hse : start ≤ stop)
    (hstop : stop ≤ t.shape dim) (hj : j ≠ dim) (hidx : idx dim = 0) :
    (t.slice dim start stop).data = t.data + start * t.strides dim
    ∧ (t.slice dim start stop).shape dim = stop - start
    ∧ (t.slice dim start stop).strides = t.strides
    ∧ (t.slice dim start stop).shape j = t.shape j
    ∧ (t.slice dim start stop).ndim = t.ndim
    ∧ elem_addr (t.slice dim start stop) idx
        = elem_addr t (fun r => if r = dim then start else idx r) := by
  refine ⟨rfl, by simp [Tensor.slice], rfl, by simp [Tensor.slice, hj], rfl, ?_⟩
  unfold elem_addr Tensor.slice
  have hmem : dim ∈ Finset.range t.ndim := Finset.mem_range.mpr hdim
  rw [← Finset.add_sum_erase _ (fun i => idx i * t.strides i) hmem,
    ← Finset.add_sum_erase _ (fun i => (if i = dim then start else idx i) * t.strides i) hmem]
  have hs : ∑ i in (Finset.range t.ndim).erase dim, idx i * t.strides i
      = ∑ i in (Finset.range t.ndim).erase dim,
          (if i = dim then start else idx i) * t.strides i := by
    refine Finset.sum_congr rfl fun x hx => ?_
    have hxd : x ≠ dim := Finset.ne_of_mem_erase hx
    simp [hxd]
  simp only [hidx, if_pos rfl]
  rw [← hs]
  simp
  ring

/-- Witness for C7: slicing columns 2 to 5 of a 4 by 6 row-major F32
matrix; the address identity is checked at row index 3. -/
theorem C7_slice_witness :
    (exM46.slice 1 2 5).data = exM46.data + 2 * exM46.strides 1
    ∧ (exM46.slice 1 2 5).shape 1 = 5 - 2
    ∧ (exM46.slice 1 2 5).strides = exM46.strides
    ∧ (exM46.slice 1 2 5).shape 0 = exM46.shape 0
    ∧ (exM46.slice 1 2 5).ndim = exM46.ndim
    ∧ elem_addr (exM46.slice 1 2 5) (fun r => if r = 0 then 3 else 0)
        = elem_addr exM46 (fun r => if r = 1 then 2 else if r = 0 then 3 else 0) :=
  C7_slice exM46 1 0 2 5 (fun r => if r = 0 then 3 else 0)
    (by decide) (by decide) (by decide) (by decide) (by decide) (by decide)

/-- A broadcast resolution step succeeds exactly when the paired
dimensions are equal or one of them is 1. -/
theorem bcastDim_isSome_iff (a b : Int) :
    (ops.bcastDim a b).isSome = true ↔ (a = b ∨ a = 1 ∨ b = 1) := by
  unfold ops.bcastDim
  split_ifs with h1 h2 h3 <;> simp_all

/-- On compatible pairs the broadcast resolution step returns the other
dimension when the first is 1 and the first dimension otherwise. -/
theorem bcastDim_getD_of_compat (a b : Int) (h : a = b ∨ a = 1 ∨ b = 1) :
    (ops.bcastDim a b).getD 0 = if a = 1 then b else a := by
  unfold ops.bcastDim
  split_ifs with h1 h2 h3 <;> simp_all

/-- broadcast_shape fails exactly when some right-aligned pair fails the
per-dimension resolution step. -/
theorem broadcast_shape_eq_none_iff (aS bS : Nat → Int) (aN bN : Nat) :
    ops.broadcast_shape aS aN bS bN = none ↔
      ¬ ∀ i, i < max aN bN →
          (ops.bcastDim (ops.alignedDim aS aN (max aN bN) i)
            (ops.alignedDim bS bN (max aN bN) i)).isSome = true := by
  unfold ops.broadcast_shape
  dsimp only
  split_ifs with hc
  · exact iff_of_false (by simp) (not_not_intro hc)
  · exact iff_of_true rfl hc

/-- A successful broadcast_shape returns the larger input rank, the
per-dimension resolved extents, and implies every pair passed the
resolution step. -/
theorem broadcast_shape_eq_some (aS bS : Nat → Int) (aN bN oN : Nat) (oS : Nat → Int)
    (h : ops.broadcast_shape aS aN bS bN = some (oN, oS)) :
    oN = max aN bN
    ∧ oS = (fun i => (ops.bcastDim (ops.alignedDim aS aN (max aN bN) i)
        (ops.alignedDim bS bN (max aN bN) i)).getD 0)
    ∧ ∀ i, i < max aN bN →
        (ops.bcastDim (ops.alignedDim aS aN (max aN bN) i)
          (ops.alignedDim bS bN (max aN bN) i)).isSome = true := by
  unfold ops.broadcast_shape at h
  dsimp only at h
  split_ifs at h with hc
  have hp := Option.some.inj h
  rw [Prod.mk.injEq] at hp
  exact ⟨hp.1.symm, hp.2.symm, hc⟩

/-- C5 (amended): broadcast_shape walks the two shapes right-aligned from
the trailing dimension, a missing leading dimension counting as 1; each
paired dimension must be equal or have one side equal to 1, and any
incompatible pair makes the function report failure (none here, false in
the source) instead of producing a shape — and failure only arises from
such a pair.  On success the output rank is the larger input rank and each
output dimension is the OTHER dimension of its pair when one side is 1,
and the common value otherwise; this is the larger of the pair whenever
both dimensions are positive, as the claim words it, but a pair (1, 0)
resolves to 0, not to the larger value 1.  The two spec examples hold:
([3,1],[1,4]) resolves to [3,4] and ([2,3],[4,5]) fails. -/
theorem C5_broadcast_amended (aS bS : Nat → Int) (aN bN j oN : Nat) (oS : Nat → Int) :
    (ops.broadcast_shape aS aN bS bN = none →
      ¬ ∀ i, i < max aN bN →
          (ops.alignedDim aS aN (max aN bN) i = ops.alignedDim bS bN (max aN bN) i
            ∨ ops.alignedDim aS aN (max aN bN) i = 1
            ∨ ops.alignedDim bS bN (max aN bN) i = 1))
    ∧ (j < max aN bN →
        ¬ (ops.alignedDim aS aN (max aN bN) j = ops.alignedDim bS bN (max aN bN) j
            ∨ ops.alignedDim aS aN (max aN bN) j = 1
            ∨ ops.alignedDim bS bN (max aN bN) j = 1) →
        ops.broadcast_shape aS aN bS bN = none)
    ∧ (ops.broadcast_shape aS aN bS bN = some (oN, oS) → j < oN →
        oN = max aN bN
        ∧ oS j = (if ops.alignedDim aS aN (max aN bN) j = 1
                  then ops.alignedDim bS bN (max aN bN) j
                  else ops.alignedDim aS aN (max aN bN) j)
        ∧ (0 < ops.alignedDim aS aN (max aN bN) j →
            0 < ops.alignedDim bS bN (max aN bN) j →
            oS j = max (ops.alignedDim aS aN (max aN bN) j)
              (ops.alignedDim bS bN (max aN bN) j)))
    ∧ (ops.broadcast_shape (fun i => [3, 1].getD i 0) 2 (fun i => [1, 4].getD i 0) 2).map
        (fun p => (p.1, p.2 0, p.2 1)) = some (2, 3, 4)
    ∧ (ops.broadcast_shape (fun i => [2, 3].getD i 0) 2
        (fun i => [4, 5].getD i 0) 2).isNone = true := by
  refine ⟨?_, ?_, ?_, by decide, by decide⟩
  · intro hnone hall
    rw [broadcast_shape_eq_none_iff] at hnone
    exact hnone fun i hi => (bcastDim_isSome_iff _ _).mpr (hall i hi)
  · intro hj hbad
    rw [broadcast_shape_eq_none_iff]
    intro hall
    exact hbad ((bcastDim_isSome_iff _ _).mp (hall j hj))
  · intro hsome hj
    obtain ⟨hN, hS, hall⟩ := broadcast_shape_eq_some aS bS aN bN oN oS hsome
    have hjm : j < max aN bN := hN ▸ hj
    have hcompat := (bcastDim_isSome_iff _ _).mp (hall j hjm)
    have hval : oS j = (if ops.alignedDim aS aN (max aN bN) j = 1
        then ops.alignedDim bS bN (max aN bN) j
        else ops.alignedDim aS aN (max aN bN) j) := by
      rw [hS]
      exact bcastDim_getD_of_compat _ _ hcompat
    refine ⟨hN, hval, ?_⟩
    intro hA hB
    rw [hval]
    by_cases hA1 : ops.alignedDim aS aN (max aN bN) j = 1
    · rw [if_pos hA1, hA1]
      exact (max_eq_right (by omega)).symm
    · rw [if_neg hA1]
      rcases hcompat with h | h | h
      · rw [h, max_self]
      · exact absurd h hA1
      · rw [h]
        exact (max_eq_left (by omega)).symm

/-- Witness for C5 on its success branch: ([3,1],[1,4]) resolves, and the
trailing output dimension is the resolved pair value. -/
theorem C5_broadcast_amended_witness :
    ops.broadcast_shape exBA 2 exBB 2 = some (2, exBO)
    ∧ exBO 1 = (if ops.alignedDim exBA 2 (max 2 2) 1 = 1
        then ops.alignedDim exBB 2 (max 2 2) 1
        else ops.alignedDim exBA 2 (max 2 2) 1) :=
  ⟨rfl, ((C5_broadcast_amended exBA exBB 2 2 1 2 exBO).2.2.1 rfl (by decide)).2.1⟩

/-- Counterexample to C5 as stated: the pair (1, 0) is broadcast
compatible (one side is 1) and the source resolves it to the other side,
0; the claim says the output dimension is the larger of the pair, which
would be 1. -/
theorem C5_broadcast_counterexample :
    (ops.broadcast_shape (fun _ => 1) 1 (fun _ => 0) 1).map (fun p => p.2 0) = some 0
    ∧ max (1 : Int) 0 = 1
    ∧ (0 : Int) ≠ 1 := by
  decide

/-- A left fold of multiplication over List.range equals the initial value
times the product over Finset.range (the loop-accumulator form used by
numel and calc_tensor_bytes). -/
theorem range_foldl_mul {M : Type _} [CommMonoid M] (f : Nat → M) (n : Nat) (a : M) :
    (List.range n).foldl (fun acc i => acc * f i) a = a * ∏ i in Finset.range n, f i := by
  induction n generalizing a with
  | zero => simp
  | succ n ih =>
      rw [List.range_succ, List.foldl_append, ih]
      simp [Finset.prod_range_succ, mul_assoc]

/-- Value-level description of the descending stride-fill loop: slot k
receives the running stride, the element width times the product of the
extents strictly to its right; slots at or beyond the loop start keep the
base array's entries. -/
theorem fillStrides_eval (shape : Nat → Int) :
    ∀ (i : Nat) (e : Int) (s0 : Nat → Int) (k : Nat),
      fillStrides shape e i s0 k
        = if k < i then e * ∏ j in Finset.Ico (k + 1) i, shape j else s0 k := by
  intro i
  induction i with
  | zero => intro e s0 k; simp [fillStrides]
  | succ i ih =>
      intro e s0 k
      rw [fillStrides, ih]
      by_cases hk : k < i
      · rw [if_pos hk, if_pos (Nat.lt_succ_of_lt hk)]
        rw [Finset.prod_Ico_succ_top (by omega : k + 1 ≤ i)]
        ring
      · rw [if_neg hk]
        by_cases hk2 : k = i
        · subst hk2
          rw [if_pos rfl, if_pos (Nat.lt_succ_self k)]
          simp
        · rw [if_neg hk2, if_neg (by omega : ¬ k < i + 1)]

/-- The descending contiguity check accepts exactly the canonical
right-to-left running-product strides: if every slot below n holds the
width times the product of the extents to its right, the check succeeds
from any suffix position with the matching expected stride. -/
theorem contigCheck_canonical (shape strides : Nat → Int) (w : Int) (n : Nat)
    (hs : ∀ i, i < n → strides i = w * ∏ j in Finset.Ico (i + 1) n, shape j) :
    ∀ k, k ≤ n → contigCheck shape strides (w * ∏ j in Finset.Ico k n, shape j) k = true := by
  intro k
  induction k with
  | zero => intro _; rfl
  | succ k ih =>
      intro hk
      have h1 : strides k = w * ∏ j in Finset.Ico (k + 1) n, shape j := hs k (by omega)
      have h2 : (w * ∏ j in Finset.Ico (k + 1) n, shape j) * shape k
          = w * ∏ j in Finset.Ico k n, shape j := by
        rw [Finset.prod_eq_prod_Ico_succ_bot (show k < n by omega) shape]
        ring
      rw [contigCheck, h1, h2]
      simp [ih (by omega)]

/-- C3: for every shape of rank between 1 and MAX_DIMS with non-negative
extents and every element type, the computed byte size is the element byte
width times the product of all extents (and is the element width alone at
rank 0); the canonical row-major strides give the last dimension the
element width and slot i the width times the product of the extents to its
right; and a tensor built from that shape and those strides satisfies
is_contiguous. -/
theorem C3_layout (shape : Nat → Int) (ndim i : Nat) (dt : DType) (base : Nat → Int)
    (hpos : 0 < ndim) (hle : ndim ≤ MAX_DIMS) (hi : i < ndim)
    (hnn : ∀ j, j < ndim → 0 ≤ shape j) :
    ((calc_tensor_bytes shape ndim dt : Int)
        = (dtype_size dt : Int) * ∏ j in Finset.range ndim, shape j)
    ∧ calc_tensor_bytes shape 0 dt = dtype_size dt
    ∧ calc_contiguous_strides shape ndim dt base (ndim - 1) = (dtype_size dt : Int)
    ∧ calc_contiguous_strides shape ndim dt base i
        = (dtype_size dt : Int) * ∏ j in Finset.Ico (i + 1) ndim, shape j
    ∧ Tensor.is_contiguous
        { data := 0, dtype := dt, device := Device.CPU, ndim := ndim,
          shape := shape, strides := calc_contiguous_strides shape ndim dt base,
          owns_data := true } = true := by
  have hne : ¬ ndim = 0 := by omega
  have hcs : ∀ r, r < ndim → calc_contiguous_strides shape ndim dt base r
      = (dtype_size dt : Int) * ∏ j in Finset.Ico (r + 1) ndim, shape j := by
    intro r hr
    unfold calc_contiguous_strides
    rw [if_neg hne, fillStrides_eval, if_pos hr]
  refine ⟨?_, rfl, ?_, hcs i hi, ?_⟩
  · unfold calc_tensor_bytes
    rw [if_neg hne, range_foldl_mul]
    have hb : ∏ j in Finset.range ndim, (((shape j).toNat : Int))
        = ∏ j in Finset.range ndim, shape j :=
      Finset.prod_congr rfl fun j hj =>
        Int.toNat_of_nonneg (hnn j (Finset.mem_range.mp hj))
    push_cast
    rw [hb]
    ring
  · rw [hcs (ndim - 1) (by omega), Nat.sub_add_cancel (by omega : 1 ≤ ndim)]
    simp
  · unfold Tensor.is_contiguous
    rw [if_neg hne]
    have h := contigCheck_canonical shape (calc_contiguous_strides shape ndim dt base)
      (dtype_size dt : Int) ndim hcs ndim le_rfl
    simpa using h

/-- Witness for C3 at shape [2, 3] with F32 elements over the zeroed base
strides array. -/
theorem C3_layout_witness :
    ((calc_tensor_bytes exShape23 2 DType.F32 : Int)
        = (dtype_size DType.F32 : Int) * ∏ j in Finset.range 2, exShape23 j)
    ∧ calc_tensor_bytes exShape23 0 DType.F32 = dtype_size DType.F32
    ∧ calc_contiguous_strides exShape23 2 DType.F32 zeroBase (2 - 1)
        = (dtype_size DType.F32 : Int)
    ∧ calc_contiguous_strides exShape23 2 DType.F32 zeroBase 0
        = (dtype_size DType.F32 : Int) * ∏ j in Finset.Ico (0 + 1) 2, exShape23 j
    ∧ Tensor.is_contiguous
        { data := 0, dtype := DType.F32, device := Device.CPU, ndim := 2,
          shape := exShape23, strides := calc_contiguous_strides exShape23 2 DType.F32 zeroBase,
          owns_data := true } = true :=
  C3_layout exShape23 2 0 DType.F32 zeroBase (by decide) (by decide) (by decide)
    (by decide)

/-- C4: for the four arithmetic binary kernels on CPU F32 tensors, exactly
two operand shape combinations produce writes.  With identical input
element counts every output word below the output element count becomes
the pure elementwise combination of the input words (and the two spec
examples hold: add gives [6,8,10,12] and mul gives [5,12,21,32] on
[1,2,3,4] and [5,6,7,8]); with differing counts and a one-element right
operand, that single value combines against every output word; any other
combination of element counts writes nothing and leaves the output buffer
unchanged. -/
theorem C4_binary_elementwise (a b out : Tensor) (aB bB outB : Int → ℚ)
    (op : ops.ElementwiseOp) (i : Int)
    (hop : op = ops.ElementwiseOp.ADD ∨ op = ops.ElementwiseOp.SUB
      ∨ op = ops.ElementwiseOp.MUL ∨ op = ops.ElementwiseOp.DIV)
    (hda : a.device = Device.CPU) (hdb : b.device = Device.CPU)
    (hdo : out.device = Device.CPU)
    (hta : a.dtype = DType.F32) (htb : b.dtype = DType.F32)
    (hto : out.dtype = DType.F32) :
    (a.numel = b.numel →
      ops.binary_op a b out aB bB outB op i
        = if 0 ≤ i ∧ i < out.numel then ops.binScalar op (aB i) (bB i) else outB i)
    ∧ (a.numel ≠ b.numel → b.numel = 1 →
      ops.binary_op a b out aB bB outB op i
        = if 0 ≤ i ∧ i < out.numel then ops.binScalar op (aB i) (bB 0) else outB i)
    ∧ (a.numel ≠ b.numel → b.numel ≠ 1 →
      ops.binary_op a b out aB bB outB op = outB)
    ∧ (List.range 4).map (fun r =>
        ops.binary_op exV4 exV4b exV4o (bufL [1, 2, 3, 4]) (bufL [5, 6, 7, 8])
          (bufL []) ops.ElementwiseOp.ADD (r : Int)) = [6, 8, 10, 12]
    ∧ (List.range 4).map (fun r =>
        ops.binary_op exV4 exV4b exV4o (bufL [1, 2, 3, 4]) (bufL [5, 6, 7, 8])
          (bufL []) ops.ElementwiseOp.MUL (r : Int)) = [5, 12, 21, 32] := by
  have hdev : ¬ (a.device ≠ Device.CPU ∨ b.device ≠ Device.CPU
      ∨ out.device ≠ Device.CPU) := by simp [hda, hdb, hdo]
  have hty : ¬ (a.dtype ≠ DType.F32 ∨ b.dtype ≠ DType.F32) := by simp [hta, htb]
  refine ⟨?_, ?_, ?_, ?_, ?_⟩
  · intro hn
    unfold ops.binary_op
    rw [if_neg hdev, if_neg hty]
    rw [if_pos hn]
    rcases hop with rfl | rfl | rfl | rfl <;> rfl
  · intro hn hb1
    unfold ops.binary_op
    rw [if_neg hdev, if_neg hty]
    rw [if_neg hn, if_pos hb1]
    rcases hop with rfl | rfl | rfl | rfl <;> rfl
  · intro hn hb1
    unfold ops.binary_op
    rw [if_neg hdev, if_neg hty]
    rw [if_neg hn, if_neg hb1]
  · simp [ops.binary_op, exV4, exV4b, exV4o, mkT, bufL, Tensor.numel, List.range_succ]
    norm_num
  · simp [ops.binary_op, exV4, exV4b, exV4o, mkT, bufL, Tensor.numel, List.range_succ]
    norm_num

/-- Witness for C4 on the equal-count branch at word 0 of the add
example. -/
theorem C4_binary_elementwise_witness :
    ops.binary_op exV4 exV4b exV4o (bufL [1, 2, 3, 4]) (bufL [5, 6, 7, 8])
        (bufL []) ops.ElementwiseOp.ADD 0
      = if (0 : Int) ≤ 0 ∧ (0 : Int) < exV4o.numel
        then ops.binScalar ops.ElementwiseOp.ADD (bufL [1, 2, 3, 4] 0) (bufL [5, 6, 7, 8] 0)
        else bufL [] 0 :=
  (C4_binary_elementwise exV4 exV4b exV4o (bufL [1, 2, 3, 4]) (bufL [5, 6, 7, 8])
      (bufL []) ops.ElementwiseOp.ADD 0 (Or.inl rfl) rfl rfl rfl rfl rfl rfl).1
    (by decide)

/-- C2 (amended): for rank-2 F32 tensors on the CPU, gemm with matching
shapes writes alpha times the inner-product accumulation plus beta times
the previous value into every output cell (m, n) with m below M and n
below N, and touches no word outside the M times N output region; a
disagreeing inner dimension or a wrong output shape makes the whole call a
silent no-op on the C buffer.  The spec example holds: matmul of
[[1,2,3],[4,5,6]] and [[1,4],[2,5],[3,6]] yields [[14,32],[32,77]]. -/
theorem C2_gemm_amended (A B C : Tensor) (aB bB cB : Int → ℚ) (alpha beta : ℚ)
    (m n idx : Int)
    (hdA : A.device = Device.CPU) (hdB : B.device = Device.CPU)
    (hdC : C.device = Device.CPU)
    (hnA : A.ndim = 2) (hnB : B.ndim = 2) (hnC : C.ndim = 2)
    (htA : A.dtype = DType.F32) (htB : B.dtype = DType.F32)
    (htC : C.dtype = DType.F32) :
    ((B.shape 0 = A.shape 1 ∧ C.shape 0 = A.shape 0 ∧ C.shape 1 = B.shape 1) →
      (0 ≤ m → m < A.shape 0 → 0 ≤ n → n < B.shape 1 →
        ops.gemm A B C aB bB cB alpha beta (m * B.shape 1 + n)
          = alpha * (∑ k in Finset.range (A.shape 1).toNat,
              aB (m * A.shape 1 + (k : Int)) * bB ((k : Int) * B.shape 1 + n))
            + beta * cB (m * B.shape 1 + n))
      ∧ ((idx < 0 ∨ A.shape 0 * B.shape 1 ≤ idx) →
          ops.gemm A B C aB bB cB alpha beta idx = cB idx))
    ∧ (B.shape 0 ≠ A.shape 1 → ops.gemm A B C aB bB cB alpha beta = cB)
    ∧ ((C.shape 0 ≠ A.shape 0 ∨ C.shape 1 ≠ B.shape 1) →
        ops.gemm A B C aB bB cB alpha beta = cB)
    ∧ (List.range 4).map (fun r =>
        ops.matmul exGA exGB exGC (bufL [1, 2, 3, 4, 5, 6]) (bufL [1, 4, 2, 5, 3, 6])
          (bufL []) (r : Int)) = [14, 32, 32, 77] := by
  have hdev : ¬ (A.device ≠ Device.CPU ∨ B.device ≠ Device.CPU
      ∨ C.device ≠ Device.CPU) := by simp [hdA, hdB, hdC]
  have hnd : ¬ (A.ndim ≠ 2 ∨ B.ndim ≠ 2 ∨ C.ndim ≠ 2) := by simp [hnA, hnB, hnC]
  have hty : ¬ (A.dtype ≠ DType.F32 ∨ B.dtype ≠ DType.F32
      ∨ C.dtype ≠ DType.F32) := by simp [htA, htB, htC]
  refine ⟨?_, ?_, ?_, ?_⟩
  · rintro ⟨hB0, hC0, hC1⟩
    have hsh : ¬ (B.shape 0 ≠ A.shape 1 ∨ C.shape 0 ≠ A.shape 0
        ∨ C.shape 1 ≠ B.shape 1) := by simp [hB0, hC0, hC1]
    constructor
    · intro hm0 hmM hn0 hnN
      unfold ops.gemm
      rw [if_neg hdev, if_neg hnd, if_neg hty, if_neg hsh]
      have hN : 0 < B.shape 1 := lt_of_le_of_lt hn0 hnN
      have hidx0 : 0 ≤ m * B.shape 1 + n :=
        add_nonneg (mul_nonneg hm0 hN.le) hn0
      have hstep : (m + 1) * B.shape 1 ≤ A.shape 0 * B.shape 1 :=
        mul_le_mul_of_nonneg_right (by omega) hN.le
      have hidxlt : m * B.shape 1 + n < A.shape 0 * B.shape 1 := by
        rw [add_mul, one_mul] at hstep
        omega
      rw [if_pos ⟨hN, hidx0, hidxlt⟩]
      have hdiv : (m * B.shape 1 + n) / B.shape 1 = m := by
        rw [add_comm, Int.add_mul_ediv_right _ _ (ne_of_gt hN),
          Int.ediv_eq_zero_of_lt hn0 hnN, zero_add]
      have hmod : (m * B.shape 1 + n) % B.shape 1 = n := by
        rw [add_comm, Int.add_mul_emod_self, Int.emod_eq_of_lt hn0 hnN]
      rw [hdiv, hmod]
    · intro hout
      unfold ops.gemm
      rw [if_neg hdev, if_neg hnd, if_neg hty, if_neg hsh, if_neg]
      rintro ⟨hN, h0, hlt⟩
      rcases hout with h | h <;> omega
  · intro hB0
    unfold ops.gemm
    rw [if_neg hdev, if_neg hnd, if_neg hty, if_pos (Or.inl hB0)]
  · intro hC
    unfold ops.gemm
    rcases hC with h | h
    · rw [if_neg hdev, if_neg hnd, if_neg hty, if_pos (Or.inr (Or.inl h))]
    · rw [if_neg hdev, if_neg hnd, if_neg hty, if_pos (Or.inr (Or.inr h))]
  · simp [ops.matmul, ops.gemm, exGA, exGB, exGC, mkT, bufL, List.range_succ,
      Finset.sum_range_succ]
    norm_num

/-- Witness for C2 on the matching branch: the (0, 0) cell of the matmul
example is written with the accumulation formula. -/
theorem C2_gemm_amended_witness :
    ops.gemm exGA exGB exGC (bufL [1, 2, 3, 4, 5, 6]) (bufL [1, 4, 2, 5, 3, 6])
        (bufL []) 1 0 (0 * exGB.shape 1 + 0)
      = 1 * (∑ k in Finset.range (exGA.shape 1).toNat,
          bufL [1, 2, 3, 4, 5, 6] (0 * exGA.shape 1 + (k : Int))
            * bufL [1, 4, 2, 5, 3, 6] ((k : Int) * exGB.shape 1 + 0))
        + 0 * bufL [] (0 * exGB.shape 1 + 0) :=
  (((C2_gemm_amended exGA exGB exGC (bufL [1, 2, 3, 4, 5, 6])
      (bufL [1, 4, 2, 5, 3, 6]) (bufL []) 1 0 0 0 0
      rfl rfl rfl rfl rfl rfl rfl rfl rfl).1 ⟨by decide, by decide, by decide⟩).1
    (by decide) (by decide) (by decide) (by decide))

/-- Counterexample to C2 as stated: the claim quantifies over
floating-element tensors, but gemm refuses every element type other than
F32.  On 1 by 1 F64 matrices with A = [[2]], B = [[3]], previous C = [[7]],
alpha 1 and beta 0, the claimed result is 6 while the call leaves the
output word at 7. -/
theorem C2_gemm_counterexample :
    ops.gemm exGA64 exGB64 exGC64 (fun _ => 2) (fun _ => 3) (fun _ => 7) 1 0 0 = 7
    ∧ ((7 : ℚ) ≠ 1 * (2 * 3) + 0 * 7) := by
  constructor
  · rfl
  · norm_num

/-- C10 (amended): the F32 gate of each kernel covers exactly the operands
it checks.  unary_op writes nothing unless both its input and output are
F32; gemm writes nothing unless A, B and C are all F32; reduce_all returns
0 for every non-F32 input, whatever the buffer holds; but binary_op checks
only its two INPUT tensors — with F32 inputs it writes through the output
buffer even when the output tensor's element type is not F32 (the final
conjunct exhibits such a write into an F64-typed output). -/
theorem C10_f32_gate_amended
    (mathF : ops.ElementwiseOp → ℚ → ℚ)
    (tin tout a b out A B C t : Tensor)
    (inB outB aB bB oB ga gb gc buf : Int → ℚ)
    (uop bop : ops.ElementwiseOp) (alpha beta : ℚ) (rop : ops.ReduceOp)
    (h1 : tin.dtype ≠ DType.F32 ∨ tout.dtype ≠ DType.F32)
    (h2 : a.dtype ≠ DType.F32 ∨ b.dtype ≠ DType.F32)
    (h3 : A.dtype ≠ DType.F32 ∨ B.dtype ≠ DType.F32 ∨ C.dtype ≠ DType.F32)
    (h4 : t.dtype ≠ DType.F32) :
    ops.unary_op mathF tin tout inB outB uop = outB
    ∧ ops.binary_op a b out aB bB oB bop = oB
    ∧ ops.gemm A B C ga gb gc alpha beta = gc
    ∧ ops.reduce_all t buf rop = ops.RVal.fin 0
    ∧ ops.binary_op exS32a exS32b exS64o (fun _ => 2) (fun _ => 3) (fun _ => 7)
        ops.ElementwiseOp.ADD 0 = 5 := by
  refine ⟨?_, ?_, ?_, ?_, ?_⟩
  · unfold ops.unary_op
    split_ifs <;> rfl
  · unfold ops.binary_op
    split_ifs <;> rfl
  · unfold ops.gemm
    split_ifs <;> rfl
  · unfold ops.reduce_all
    rw [if_pos h4]
  · norm_num [ops.binary_op, exS32a, exS32b, exS64o, mkT, Tensor.numel,
      List.range_succ, List.foldl_append, List.foldl_cons, List.foldl_nil]

/-- Witness for C10 at concrete F64 tensors and nonzero buffers. -/
theorem C10_f32_gate_amended_witness :
    ops.unary_op (fun _ x => x) exS64o exS64o (fun _ => 9) (fun _ => 9)
        ops.ElementwiseOp.ADD = (fun _ => 9)
    ∧ ops.binary_op exS64o exS64o exS64o (fun _ => 9) (fun _ => 9) (fun _ => 9)
        ops.ElementwiseOp.ADD = (fun _ => 9)
    ∧ ops.gemm exS64o exS64o exS64o (fun _ => 9) (fun _ => 9) (fun _ => 9) 1 0
        = (fun _ => 9)
    ∧ ops.reduce_all exS64o (fun _ => 9) ops.ReduceOp.SUM = ops.RVal.fin 0
    ∧ ops.binary_op exS32a exS32b exS64o (fun _ => 2) (fun _ => 3) (fun _ => 7)
        ops.ElementwiseOp.ADD 0 = 5 :=
  C10_f32_gate_amended (fun _ x => x) exS64o exS64o exS64o exS64o exS64o exS64o
    exS64o exS64o exS64o (fun _ => 9) (fun _ => 9) (fun _ => 9) (fun _ => 9)
    (fun _ => 9) (fun _ => 9) (fun _ => 9) (fun _ => 9) (fun _ => 9)
    ops.ElementwiseOp.ADD ops.ElementwiseOp.ADD 1 0 ops.ReduceOp.SUM
    (by decide) (by decide) (by decide) (by decide)

/-- Counterexample to C10 as stated: binary_op does not check the output
element type.  With both inputs F32 but the output tensor typed F64, the
kernel still writes word 0 of the output buffer (2 + 3 = 5 replaces the
previous 7), so it is not true that every non-F32 operand makes the
kernels write nothing. -/
theorem C10_f32_gate_counterexample :
    exS64o.dtype = DType.F64
    ∧ ops.binary_op exS32a exS32b exS64o (fun _ => 2) (fun _ => 3) (fun _ => 7)
        ops.ElementwiseOp.ADD 0 = 5
    ∧ (5 : ℚ) ≠ 7 := by
  refine ⟨rfl, ?_, by norm_num⟩
  norm_num [ops.binary_op, exS32a, exS32b, exS64o, mkT, Tensor.numel,
    List.range_succ, List.foldl_append, List.foldl_cons, List.foldl_nil]

end ZeroRT
